import Mathlib

/-!
Verification of the filter-and-aggregate pipeline of the employee-attrition
dashboard (`src/app.py`).  The dataset is an ordered list of employee
records; the sidebar criteria are a value object; the filter is the boolean
mask of `df_filtered` (app.py lines 28-33); the aggregations modelled are
the attrition-rate KPI (line 43), the rate-by-category groupby (lines 80-81,
139-140), the age binning `pd.cut` (line 92) and the row-normalized
crosstab (line 93).
-/

/-- One employee row, restricted to the columns the filter pipeline and the
modelled aggregations read: `Department`, `Gender`, `Age`, `MonthlyIncome`
and `Attrition` (the other ~20 columns are never consulted by these
computations). -/
structure Record where
  Department : String
  Gender : String
  Age : ℤ
  MonthlyIncome : ℤ
  Attrition : String
deriving DecidableEq, Repr

/-- The sidebar selection (app.py lines 20-25): a department multiselect, a
gender multiselect, and two inclusive range sliders. -/
structure FilterCriteria where
  departments : List String
  genders : List String
  ageLo : ℤ
  ageHi : ℤ
  incomeLo : ℤ
  incomeHi : ℤ
deriving DecidableEq, Repr

/-- The boolean mask of app.py lines 29-32: `isin(departments)`,
`isin(genders)`, `Age.between(lo, hi)` and `MonthlyIncome.between(lo, hi)`;
pandas `between` is inclusive on both ends. -/
def recordMatches (c : FilterCriteria) (r : Record) : Bool :=
  decide (r.Department ∈ c.departments) && decide (r.Gender ∈ c.genders) &&
  (decide (c.ageLo ≤ r.Age) && decide (r.Age ≤ c.ageHi)) &&
  (decide (c.incomeLo ≤ r.MonthlyIncome) && decide (r.MonthlyIncome ≤ c.incomeHi))

/-- `df_filtered` (app.py lines 28-33): the rows of the dataset whose mask
is true, in dataset order. -/
def df_filtered (df : List Record) (c : FilterCriteria) : List Record :=
  df.filter (recordMatches c)

theorem recordMatches_iff (c : FilterCriteria) (r : Record) :
    recordMatches c r = true ↔
      r.Department ∈ c.departments ∧ r.Gender ∈ c.genders ∧
      (c.ageLo ≤ r.Age ∧ r.Age ≤ c.ageHi) ∧
      (c.incomeLo ≤ r.MonthlyIncome ∧ r.MonthlyIncome ≤ c.incomeHi) := by
  simp [recordMatches, and_assoc]

/-- C1: every record of the filtered view is a member of the dataset and
satisfies all four filter predicates (department membership, gender
membership, inclusive age range, inclusive income range). -/
theorem C1_filtered_subset_and_predicates
    (df : List Record) (c : FilterCriteria) (r : Record)
    (hr : r ∈ df_filtered df c) :
    r ∈ df ∧ r.Department ∈ c.departments ∧ r.Gender ∈ c.genders ∧
      c.ageLo ≤ r.Age ∧ r.Age ≤ c.ageHi ∧
      c.incomeLo ≤ r.MonthlyIncome ∧ r.MonthlyIncome ≤ c.incomeHi := by
  rw [df_filtered, List.mem_filter] at hr
  obtain ⟨hmem, hmask⟩ := hr
  rw [recordMatches_iff] at hmask
  exact ⟨hmem, hmask.1, hmask.2.1, hmask.2.2.1.1, hmask.2.2.1.2,
    hmask.2.2.2.1, hmask.2.2.2.2⟩

def exRecord : Record :=
  { Department := "Sales", Gender := "Male", Age := 30,
    MonthlyIncome := 5000, Attrition := "No" }

def exCriteria : FilterCriteria :=
  { departments := ["Sales"], genders := ["Male", "Female"],
    ageLo := 18, ageHi := 60, incomeLo := 1000, incomeHi := 20000 }

theorem C1_witness :
    exRecord ∈ df_filtered [exRecord] exCriteria ∧
      (exRecord ∈ [exRecord] ∧
        exRecord.Department ∈ exCriteria.departments ∧
        exRecord.Gender ∈ exCriteria.genders ∧
        exCriteria.ageLo ≤ exRecord.Age ∧ exRecord.Age ≤ exCriteria.ageHi ∧
        exCriteria.incomeLo ≤ exRecord.MonthlyIncome ∧
        exRecord.MonthlyIncome ≤ exCriteria.incomeHi) :=
  ⟨by decide, C1_filtered_subset_and_predicates [exRecord] exCriteria exRecord (by decide)⟩

/-- C2: the filter is a deterministic pure function of the dataset and the
criteria (equal inputs give equal, by-value, outputs), and re-applying the
same criteria to an already filtered view changes nothing. -/
theorem C2_filter_deterministic_idempotent
    (df₁ df₂ : List Record) (c₁ c₂ : FilterCriteria)
    (hd : df₁ = df₂) (hc : c₁ = c₂) :
    df_filtered df₁ c₁ = df_filtered df₂ c₂ ∧
      df_filtered (df_filtered df₁ c₁) c₁ = df_filtered df₁ c₁ := by
  subst hd; subst hc
  refine ⟨rfl, ?_⟩
  simp [df_filtered, List.filter_filter]

theorem C2_witness :
    df_filtered [exRecord] exCriteria = df_filtered [exRecord] exCriteria ∧
      df_filtered (df_filtered [exRecord] exCriteria) exCriteria =
        df_filtered [exRecord] exCriteria :=
  C2_filter_deterministic_idempotent [exRecord] [exRecord] exCriteria exCriteria rfl rfl

/-- C8: the filtered view is an order-preserving subsequence of the
dataset — boolean-mask selection never reorders rows. -/
theorem C8_filtered_sublist (df : List Record) (c : FilterCriteria) :
    (df_filtered df c).Sublist df :=
  List.filter_sublist df

/-- One criterion widened, the other three held fixed: either one of the
two category sets grows to a superset, or one of the two inclusive ranges
grows to an enclosing range. -/
def widensOne (n w : FilterCriteria) : Prop :=
  ((∀ s ∈ n.departments, s ∈ w.departments) ∧ n.genders = w.genders ∧
    n.ageLo = w.ageLo ∧ n.ageHi = w.ageHi ∧
    n.incomeLo = w.incomeLo ∧ n.incomeHi = w.incomeHi) ∨
  (n.departments = w.departments ∧ (∀ s ∈ n.genders, s ∈ w.genders) ∧
    n.ageLo = w.ageLo ∧ n.ageHi = w.ageHi ∧
    n.incomeLo = w.incomeLo ∧ n.incomeHi = w.incomeHi) ∨
  (n.departments = w.departments ∧ n.genders = w.genders ∧
    w.ageLo ≤ n.ageLo ∧ n.ageHi ≤ w.ageHi ∧
    n.incomeLo = w.incomeLo ∧ n.incomeHi = w.incomeHi) ∨
  (n.departments = w.departments ∧ n.genders = w.genders ∧
    n.ageLo = w.ageLo ∧ n.ageHi = w.ageHi ∧
    w.incomeLo ≤ n.incomeLo ∧ n.incomeHi ≤ w.incomeHi)

theorem recordMatches_mono (n w : FilterCriteria) (hw : widensOne n w)
    (r : Record) (h : recordMatches n r = true) : recordMatches w r = true := by
  rw [recordMatches_iff] at h ⊢
  obtain ⟨h1, h2, ⟨h3, h4⟩, h5, h6⟩ := h
  rcases hw with ⟨w1, w2, w3, w4, w5, w6⟩ | ⟨w1, w2, w3, w4, w5, w6⟩ |
    ⟨w1, w2, w3, w4, w5, w6⟩ | ⟨w1, w2, w3, w4, w5, w6⟩
  · exact ⟨w1 _ h1, w2 ▸ h2, ⟨w3 ▸ h3, w4 ▸ h4⟩, w5 ▸ h5, w6 ▸ h6⟩
  · exact ⟨w1 ▸ h1, w2 _ h2, ⟨w3 ▸ h3, w4 ▸ h4⟩, w5 ▸ h5, w6 ▸ h6⟩
  · exact ⟨w1 ▸ h1, w2 ▸ h2, ⟨le_trans w3 h3, le_trans h4 w4⟩, w5 ▸ h5, w6 ▸ h6⟩
  · exact ⟨w1 ▸ h1, w2 ▸ h2, ⟨w3 ▸ h3, w4 ▸ h4⟩, le_trans w5 h5, le_trans h6 w6⟩

/-- C3: widening any single criterion while holding the other three fixed
yields a filtered view that contains every record of the narrower one. -/
theorem C3_filter_monotone (df : List Record) (n w : FilterCriteria)
    (hw : widensOne n w) (r : Record) (hr : r ∈ df_filtered df n) :
    r ∈ df_filtered df w := by
  rw [df_filtered, List.mem_filter] at hr ⊢
  exact ⟨hr.1, recordMatches_mono n w hw r hr.2⟩

def exWideCriteria : FilterCriteria :=
  { departments := ["Sales", "HR"], genders := ["Male", "Female"],
    ageLo := 18, ageHi := 60, incomeLo := 1000, incomeHi := 20000 }

theorem C3_witness :
    widensOne exCriteria exWideCriteria ∧
      exRecord ∈ df_filtered [exRecord] exCriteria ∧
      exRecord ∈ df_filtered [exRecord] exWideCriteria :=
  ⟨by left; refine ⟨?_, rfl, rfl, rfl, rfl, rfl⟩; decide, by decide,
    C3_filter_monotone [exRecord] exCriteria exWideCriteria
      (by left; refine ⟨?_, rfl, rfl, rfl, rfl, rfl⟩; decide)
      exRecord (by decide)⟩

/-- Minimum of a list of integers; the source (`int(df["Age"].min())`,
app.py line 22) only evaluates this on the nonempty loaded dataset, so the
`[]` case is never reached there. -/
def minZ : List ℤ → ℤ
  | [] => 0
  | x :: xs => xs.foldl min x

/-- Maximum of a list of integers; the source (`int(df["Age"].max())`,
app.py line 22) only evaluates this on the nonempty loaded dataset. -/
def maxZ : List ℤ → ℤ
  | [] => 0
  | x :: xs => xs.foldl max x

theorem foldl_min_le_init (xs : List ℤ) : ∀ x : ℤ, xs.foldl min x ≤ x := by
  induction xs with
  | nil => intro x; exact le_refl x
  | cons y ys ih =>
    intro x
    calc (y :: ys).foldl min x = ys.foldl min (min x y) := rfl
      _ ≤ min x y := ih (min x y)
      _ ≤ x := min_le_left x y

theorem foldl_min_le_mem (xs : List ℤ) (a : ℤ) (h : a ∈ xs) :
    ∀ x : ℤ, xs.foldl min x ≤ a := by
  induction xs with
  | nil => cases h
  | cons y ys ih =>
    intro x
    rcases List.mem_cons.mp h with h | h
    · subst h
      calc (a :: ys).foldl min x = ys.foldl min (min x a) := rfl
        _ ≤ min x a := foldl_min_le_init ys (min x a)
        _ ≤ a := min_le_right x a
    · exact ih h (min x y)

theorem le_foldl_max_init (xs : List ℤ) : ∀ x : ℤ, x ≤ xs.foldl max x := by
  induction xs with
  | nil => intro x; exact le_refl x
  | cons y ys ih =>
    intro x
    calc x ≤ max x y := le_max_left x y
      _ ≤ ys.foldl max (max x y) := ih (max x y)
      _ = (y :: ys).foldl max x := rfl

theorem le_foldl_max_mem (xs : List ℤ) (a : ℤ) (h : a ∈ xs) :
    ∀ x : ℤ, a ≤ xs.foldl max x := by
  induction xs with
  | nil => cases h
  | cons y ys ih =>
    intro x
    rcases List.mem_cons.mp h with h | h
    · subst h
      calc a ≤ max x a := le_max_right x a
        _ ≤ ys.foldl max (max x a) := le_foldl_max_init ys (max x a)
        _ = (a :: ys).foldl max x := rfl
    · exact ih h (max x y)

theorem minZ_le (l : List ℤ) (a : ℤ) (h : a ∈ l) : minZ l ≤ a := by
  cases l with
  | nil => cases h
  | cons x xs =>
    rcases List.mem_cons.mp h with h | h
    · exact h ▸ foldl_min_le_init xs x
    · exact foldl_min_le_mem xs a h x

theorem le_maxZ (l : List ℤ) (a : ℤ) (h : a ∈ l) : a ≤ maxZ l := by
  cases l with
  | nil => cases h
  | cons x xs =>
    rcases List.mem_cons.mp h with h | h
    · exact h ▸ le_foldl_max_init xs x
    · exact le_foldl_max_mem xs a h x

/-- The sidebar defaults (app.py lines 20-25): every department value of
the dataset, every gender value, and the full min-to-max age and income
ranges computed from the dataset.  `unique()` is modelled by `dedup`, whose
membership agrees with it. -/
def defaultCriteria (df : List Record) : FilterCriteria :=
  { departments := (df.map (·.Department)).dedup
    genders := (df.map (·.Gender)).dedup
    ageLo := minZ (df.map (·.Age))
    ageHi := maxZ (df.map (·.Age))
    incomeLo := minZ (df.map (·.MonthlyIncome))
    incomeHi := maxZ (df.map (·.MonthlyIncome)) }

/-- C4: on a nonempty dataset (the source computes the defaults from the
loaded dataset, which is nonempty), the default criteria filter reproduces
the entire dataset. -/
theorem C4_default_criteria_full (df : List Record) (_h : df ≠ []) :
    df_filtered df (defaultCriteria df) = df := by
  rw [df_filtered, List.filter_eq_self]
  intro r hr
  rw [recordMatches_iff]
  refine ⟨?_, ?_, ⟨?_, ?_⟩, ?_, ?_⟩
  · exact List.mem_dedup.mpr (List.mem_map_of_mem (·.Department) hr)
  · exact List.mem_dedup.mpr (List.mem_map_of_mem (·.Gender) hr)
  · exact minZ_le _ _ (List.mem_map_of_mem (·.Age) hr)
  · exact le_maxZ _ _ (List.mem_map_of_mem (·.Age) hr)
  · exact minZ_le _ _ (List.mem_map_of_mem (·.MonthlyIncome) hr)
  · exact le_maxZ _ _ (List.mem_map_of_mem (·.MonthlyIncome) hr)

theorem C4_witness :
    [exRecord] ≠ ([] : List Record) ∧
      df_filtered [exRecord] (defaultCriteria [exRecord]) = [exRecord] :=
  ⟨by decide, C4_default_criteria_full [exRecord] (by decide)⟩

/-- Number of records of a view with `Attrition = "Yes"`. -/
def countYes (v : List Record) : ℕ :=
  v.countP (fun r => r.Attrition == "Yes")

/-- The attrition-rate KPI (app.py line 43):
`value_counts(normalize=True).get("Yes", 0)`.  On a nonempty view this is
the proportion of `"Yes"` rows (`.get` returning `0` when no row is
`"Yes"`, which coincides with the proportion `0/n`); on an empty view
`value_counts` is empty and `.get` returns the default `0`. -/
def attrition_rate (v : List Record) : ℚ :=
  if v.length = 0 then 0 else (countYes v : ℚ) / (v.length : ℚ)

/-- The rate-by-category groupby (app.py lines 80-81 and 139-140):
`groupby(C)["Attrition"].value_counts(normalize=True)` restricted to the
`Attrition == "Yes"` rows.  `value_counts` never emits zero-count entries,
so a category value with no `"Yes"` record contributes no pair; the
category order (pandas sorts group keys) is irrelevant to the claims, and
`dedup` of the column values is used for the set of group keys. -/
def rateByCategory (v : List Record) (col : Record → String) :
    List (String × ℚ) :=
  ((v.map col).dedup).filterMap (fun cat =>
    let grp := v.filter (fun r => col r == cat)
    if countYes grp = 0 then none
    else some (cat, (countYes grp : ℚ) / (grp.length : ℚ)))

/-- C5: an empty department selection yields an empty filtered view, and
the downstream aggregations degrade gracefully on it: rate-by-category is
the empty mapping and the attrition-rate KPI is `0` (not an error). -/
theorem C5_empty_departments (df : List Record) (c : FilterCriteria)
    (hc : c.departments = []) (col : Record → String) :
    df_filtered df c = [] ∧ (df_filtered df c).length = 0 ∧
      rateByCategory (df_filtered df c) col = [] ∧
      attrition_rate (df_filtered df c) = 0 := by
  have hempty : df_filtered df c = [] := by
    rw [df_filtered, List.filter_eq_nil_iff]
    intro r hr
    intro hmask
    have := (recordMatches_iff c r).mp hmask
    rw [hc] at this
    exact absurd this.1 (List.not_mem_nil _)
  refine ⟨hempty, ?_, ?_, ?_⟩
  · rw [hempty]; rfl
  · rw [hempty]; rfl
  · rw [hempty]; rfl

def exEmptyDeptCriteria : FilterCriteria :=
  { departments := [], genders := ["Male", "Female"],
    ageLo := 18, ageHi := 60, incomeLo := 1000, incomeHi := 20000 }

theorem C5_witness :
    exEmptyDeptCriteria.departments = [] ∧
      (df_filtered [exRecord] exEmptyDeptCriteria = [] ∧
        (df_filtered [exRecord] exEmptyDeptCriteria).length = 0 ∧
        rateByCategory (df_filtered [exRecord] exEmptyDeptCriteria)
          (fun r => r.Department) = [] ∧
        attrition_rate (df_filtered [exRecord] exEmptyDeptCriteria) = 0) :=
  ⟨rfl, C5_empty_departments [exRecord] exEmptyDeptCriteria rfl (fun r => r.Department)⟩

/-- Ten records in a single department, four of them with
`Attrition = "Yes"` — the spec's rate-correctness example. -/
def exView10 : List Record :=
  [{ Department := "Sales", Gender := "Male", Age := 30, MonthlyIncome := 5000, Attrition := "Yes" },
   { Department := "Sales", Gender := "Female", Age := 31, MonthlyIncome := 5100, Attrition := "Yes" },
   { Department := "Sales", Gender := "Male", Age := 32, MonthlyIncome := 5200, Attrition := "Yes" },
   { Department := "Sales", Gender := "Female", Age := 33, MonthlyIncome := 5300, Attrition := "Yes" },
   { Department := "Sales", Gender := "Male", Age := 34, MonthlyIncome := 5400, Attrition := "No" },
   { Department := "Sales", Gender := "Female", Age := 35, MonthlyIncome := 5500, Attrition := "No" },
   { Department := "Sales", Gender := "Male", Age := 36, MonthlyIncome := 5600, Attrition := "No" },
   { Department := "Sales", Gender := "Female", Age := 37, MonthlyIncome := 5700, Attrition := "No" },
   { Department := "Sales", Gender := "Male", Age := 38, MonthlyIncome := 5800, Attrition := "No" },
   { Department := "Sales", Gender := "Female", Age := 39, MonthlyIncome := 5900, Attrition := "No" }]

/-- C6 counterexample: a view containing a department ("Sales") none of
whose records has `Attrition = "Yes"`.  The category value is present in
the view, yet `value_counts` emits no `"Yes"` entry for it, so the
rate-by-category mapping reports nothing (not a rate of `0`) for that
category — the claim's "for each value of C present in the FilteredView"
fails. -/
theorem C6_counterexample :
    "Sales" ∈ ([exRecord].map Record.Department) ∧
      (rateByCategory [exRecord] Record.Department).lookup "Sales" = none := by
  decide

/-- C6 (amended): for each category value present in the view that has at
least one `Attrition = "Yes"` record, the rate-by-category mapping contains
that value paired with the proportion of its records having
`Attrition = "Yes"`; values with no `"Yes"` record are omitted.  The
conclusion also records the spec's example: on ten single-category records
with four `"Yes"`, the mapping is exactly `[("Sales", 2/5)]`, i.e. rate
`0.4`. -/
theorem C6_rate_by_category (v : List Record) (col : Record → String)
    (cat : String) (hcat : cat ∈ (v.map col).dedup)
    (hyes : countYes (v.filter (fun r => col r == cat)) ≠ 0) :
    ((cat, (countYes (v.filter (fun r => col r == cat)) : ℚ) /
        ((v.filter (fun r => col r == cat)).length : ℚ)) ∈ rateByCategory v col) ∧
      rateByCategory exView10 Record.Department = [("Sales", 2/5)] := by
  constructor
  · rw [rateByCategory]
    refine List.mem_filterMap.mpr ⟨cat, hcat, ?_⟩
    show (if countYes (v.filter (fun r => col r == cat)) = 0 then none
      else some (cat, (countYes (v.filter (fun r => col r == cat)) : ℚ) /
        ((v.filter (fun r => col r == cat)).length : ℚ))) = _
    rw [if_neg hyes]
  · have hd : (exView10.map Record.Department).dedup = ["Sales"] := by decide
    have hc : countYes (exView10.filter (fun r => Record.Department r == "Sales")) = 4 := by
      decide
    have hl : (exView10.filter (fun r => Record.Department r == "Sales")).length = 10 := by
      decide
    norm_num [rateByCategory, hd, hc, hl, List.filterMap_cons, List.filterMap_nil]

theorem C6_witness :
    ("Sales", (countYes (exView10.filter (fun r => Record.Department r == "Sales")) : ℚ) /
        ((exView10.filter (fun r => Record.Department r == "Sales")).length : ℚ)) ∈
      rateByCategory exView10 Record.Department ∧
      rateByCategory exView10 Record.Department = [("Sales", 2/5)] :=
  C6_rate_by_category exView10 Record.Department "Sales" (by decide) (by decide)

/-- The bin boundaries of app.py line 92: `bins=[18, 25, 35, 45, 55, 70]`. -/
def ageBinBounds : List ℤ := [18, 25, 35, 45, 55, 70]

/-- `pd.cut` with an explicit boundary list and default `right=True`,
`include_lowest=False`: the value is assigned the first left-exclusive,
right-inclusive interval `(a, b]` formed by consecutive boundaries that
contains it, and no interval (`none`, pandas `NaN`) otherwise. -/
def cutBin : List ℤ → ℤ → Option (ℤ × ℤ)
  | a :: b :: rest, x => if a < x ∧ x ≤ b then some (a, b) else cutBin (b :: rest) x
  | _, _ => none

theorem cutBin_sound (bins : List ℤ) (x a b : ℤ)
    (h : cutBin bins x = some (a, b)) : a < x ∧ x ≤ b := by
  induction bins with
  | nil => simp [cutBin] at h
  | cons y ys ih =>
    cases ys with
    | nil => simp [cutBin] at h
    | cons z zs =>
      simp only [cutBin] at h
      split at h
      · next hcond =>
        simp only [Option.some.injEq, Prod.mk.injEq] at h
        obtain ⟨rfl, rfl⟩ := h
        exact hcond
      · exact ih h

/-- C7: `pd.cut` with boundaries `[18, 25, 35, 45, 55, 70]` assigns a value
only to a left-exclusive, right-inclusive interval containing it; in
particular ages 20, 26 and 40 land in the three distinct bins `(18, 25]`,
`(25, 35]` and `(35, 45]`. -/
theorem C7_age_binning (x a b : ℤ) (h : cutBin ageBinBounds x = some (a, b)) :
    (a < x ∧ x ≤ b) ∧
      cutBin ageBinBounds 20 = some (18, 25) ∧
      cutBin ageBinBounds 26 = some (25, 35) ∧
      cutBin ageBinBounds 40 = some (35, 45) :=
  ⟨cutBin_sound ageBinBounds x a b h, by decide, by decide, by decide⟩

theorem C7_witness :
    ((18 : ℤ) < 20 ∧ (20 : ℤ) ≤ 25) ∧
      cutBin ageBinBounds 20 = some (18, 25) ∧
      cutBin ageBinBounds 26 = some (25, 35) ∧
      cutBin ageBinBounds 40 = some (35, 45) :=
  C7_age_binning 20 18 25 (by decide)

/-- The (bin, Attrition) pairs underlying the crosstab of app.py line 93:
`pd.crosstab(age_bins, df_filtered["Attrition"], normalize='index')` pairs
the two series index-wise and drops every row whose bin is `NaN` (age
outside every bin) before tabulating. -/
def binPairs (v : List Record) : List ((ℤ × ℤ) × String) :=
  v.filterMap (fun r => (cutBin ageBinBounds r.Age).map (fun p => (p, r.Attrition)))

theorem cutBin_none_of_all_lt (bins : List ℤ) (x : ℤ)
    (h : ∀ b ∈ bins, b < x) : cutBin bins x = none := by
  induction bins with
  | nil => rfl
  | cons y ys ih =>
    cases ys with
    | nil => rfl
    | cons z zs =>
      simp only [cutBin]
      rw [if_neg]
      · exact ih (fun b hb => h b (List.mem_cons_of_mem y hb))
      · intro hc
        exact absurd hc.2 (not_le.mpr (h z (by simp)))

/-- C9: a record whose `Age` is exactly `18` or greater than `70` falls in
no `(a, b]` bin, so it contributes no pair to the crosstab's input and is
silently dropped from that aggregation, while the record still counts in
the view itself (its presence in the list and its contribution to the
length are untouched). -/
theorem C9_edge_age_excluded_from_crosstab (r : Record) (v : List Record)
    (hage : r.Age = 18 ∨ 70 < r.Age) :
    cutBin ageBinBounds r.Age = none ∧ binPairs (r :: v) = binPairs v ∧
      r ∈ r :: v ∧ (r :: v).length = v.length + 1 := by
  have hnone : cutBin ageBinBounds r.Age = none := by
    rcases hage with h18 | h70
    · rw [h18]; decide
    · apply cutBin_none_of_all_lt
      intro b hb
      simp only [ageBinBounds, List.mem_cons, List.not_mem_nil, or_false] at hb
      rcases hb with rfl | rfl | rfl | rfl | rfl | rfl <;> omega
  refine ⟨hnone, ?_, List.mem_cons_self r v, rfl⟩
  simp [binPairs, List.filterMap_cons, hnone]

def exOldRecord : Record :=
  { Department := "HR", Gender := "Female", Age := 75,
    MonthlyIncome := 9000, Attrition := "Yes" }

theorem C9_witness :
    cutBin ageBinBounds exOldRecord.Age = none ∧
      binPairs (exOldRecord :: [exRecord]) = binPairs [exRecord] ∧
      exOldRecord ∈ exOldRecord :: [exRecord] ∧
      (exOldRecord :: [exRecord]).length = [exRecord].length + 1 :=
  C9_edge_age_excluded_from_crosstab exOldRecord [exRecord] (by right; decide)

/-- The crosstab's column labels: the `Attrition` values occurring among
the binned pairs. -/
def attrCols (v : List Record) : List String :=
  ((binPairs v).map Prod.snd).dedup

/-- Total number of binned pairs falling in bin `b` (a crosstab row
total). -/
def binRowCount (v : List Record) (b : ℤ × ℤ) : ℕ :=
  (binPairs v).countP (fun p => p.1 == b)

/-- Number of binned pairs in bin `b` with `Attrition` value `a` (a
crosstab cell). -/
def binCellCount (v : List Record) (b : ℤ × ℤ) (a : String) : ℕ :=
  (binPairs v).countP (fun p => p.1 == b && p.2 == a)

theorem sum_ite_beq_notmem {β : Type} [BEq β] [LawfulBEq β]
    (A : List β) (s : β) (c : ℕ) (hs : s ∉ A) :
    (A.map (fun a => if s == a then c else 0)).sum = 0 := by
  induction A with
  | nil => rfl
  | cons y ys ih =>
    have hne : (s == y) = false :=
      beq_eq_false_iff_ne.mpr (fun h => hs (h ▸ List.mem_cons_self y ys))
    simp only [List.map_cons, List.sum_cons, hne, Bool.false_eq_true, if_false,
      Nat.zero_add]
    exact ih (fun h => hs (List.mem_cons_of_mem y h))

theorem sum_ite_beq_mem {β : Type} [BEq β] [LawfulBEq β]
    (A : List β) (s : β) (c : ℕ) (hA : A.Nodup) (hs : s ∈ A) :
    (A.map (fun a => if s == a then c else 0)).sum = c := by
  induction A with
  | nil => cases hs
  | cons y ys ih =>
    obtain ⟨hy, hys⟩ := List.nodup_cons.mp hA
    simp only [List.map_cons, List.sum_cons]
    rcases List.mem_cons.mp hs with rfl | hmem
    · simp only [beq_self_eq_true, if_true]
      rw [sum_ite_beq_notmem ys s c hy, Nat.add_zero]
    · have hne : (s == y) = false :=
        beq_eq_false_iff_ne.mpr (fun h => hy (h ▸ hmem))
      simp only [hne, Bool.false_eq_true, if_false, Nat.zero_add]
      exact ih hys hmem

theorem sum_map_add_nat {β : Type} (A : List β) (f g : β → ℕ) :
    (A.map (fun a => f a + g a)).sum = (A.map f).sum + (A.map g).sum := by
  induction A with
  | nil => rfl
  | cons y ys ih =>
    simp only [List.map_cons, List.sum_cons, ih]
    omega

/-- Counting a predicate over a list equals the sum, over a duplicate-free
list of keys covering the list, of the counts restricted to each key. -/
theorem countP_eq_sum_by_key {α β : Type} [BEq β] [LawfulBEq β]
    (l : List α) (key : α → β) (pred : α → Bool) (A : List β)
    (hA : A.Nodup) (hk : ∀ x ∈ l, key x ∈ A) :
    l.countP pred =
      (A.map (fun a => l.countP (fun x => pred x && (key x == a)))).sum := by
  induction l with
  | nil => simp [List.countP_nil]
  | cons x l ih =>
    have hx : key x ∈ A := hk x (List.mem_cons_self x l)
    have hrest : ∀ y ∈ l, key y ∈ A := fun y hy => hk y (List.mem_cons_of_mem x hy)
    simp only [List.countP_cons]
    rw [ih hrest,
      show (A.map (fun a => l.countP (fun y => pred y && (key y == a)) +
          if (pred x && (key x == a)) = true then 1 else 0)).sum =
        (A.map (fun a => l.countP (fun y => pred y && (key y == a)))).sum +
        (A.map (fun a => if (pred x && (key x == a)) = true then 1 else 0)).sum
      from sum_map_add_nat A _ _]
    by_cases hpx : pred x = true
    · simp only [hpx, Bool.true_and, if_true]
      rw [sum_ite_beq_mem A (key x) 1 hA hx]
    · simp only [Bool.not_eq_true] at hpx
      simp [hpx]

theorem binRowCount_eq_sum_cells (v : List Record) (b : ℤ × ℤ) :
    binRowCount v b = ((attrCols v).map (fun a => binCellCount v b a)).sum :=
  countP_eq_sum_by_key (binPairs v) Prod.snd (fun p => p.1 == b) (attrCols v)
    (List.nodup_dedup _)
    (fun p hp => List.mem_dedup.mpr (List.mem_map_of_mem Prod.snd hp))

theorem sum_map_div_rat {β : Type} (A : List β) (f : β → ℚ) (c : ℚ) :
    (A.map (fun a => f a / c)).sum = (A.map f).sum / c := by
  induction A with
  | nil => simp
  | cons y ys ih =>
    simp only [List.map_cons, List.sum_cons, ih, add_div]

/-- C10: in the row-normalized crosstab of age bins against `Attrition`
(app.py line 93), any bin holding at least one binned record has per-bin
rates over the `Attrition` column values summing exactly to `1` in exact
rational arithmetic. -/
theorem C10_crosstab_row_sums_to_one (v : List Record) (b : ℤ × ℤ)
    (h : 0 < binRowCount v b) :
    ((attrCols v).map
      (fun a => (binCellCount v b a : ℚ) / (binRowCount v b : ℚ))).sum = 1 := by
  have hne : ((binRowCount v b : ℕ) : ℚ) ≠ 0 :=
    Nat.cast_ne_zero.mpr (Nat.pos_iff_ne_zero.mp h)
  rw [sum_map_div_rat (attrCols v) (fun a => (binCellCount v b a : ℚ))
    ((binRowCount v b : ℚ)), div_eq_one_iff_eq hne]
  rw [show binRowCount v b = ((attrCols v).map (fun a => binCellCount v b a)).sum
    from binRowCount_eq_sum_cells v b]
  rw [Nat.cast_list_sum, List.map_map]
  rfl

theorem C10_witness :
    0 < binRowCount [exRecord] (25, 35) ∧
      ((attrCols [exRecord]).map
        (fun a => (binCellCount [exRecord] (25, 35) a : ℚ) /
          (binRowCount [exRecord] (25, 35) : ℚ))).sum = 1 :=
  ⟨by decide, C10_crosstab_row_sums_to_one [exRecord] (25, 35) (by decide)⟩
